import Mathlib

/-!
Shallow embedding of the ad983x DDS driver (src/common.rs, src/lib.rs,
src/ad9833_ad9837.rs).  Machine integers (u8/u16/u32) are modelled as `Nat`
with explicit masking where the source masks; the SPI bus and chip-select
pin are modelled as a trace of attempted operations plus a script of
injectable faults, one script entry being consumed per primitive call
(`none` = success, `some e` = failure with error payload `e`).
-/

namespace Ad983x

/-- The 16-bit control register container (struct `Config { bits: u16 }`). -/
structure Config where
  bits : Nat
deriving DecidableEq, Repr

/-- `Config::with_high`: `bits | mask`. -/
def Config.with_high (c : Config) (mask : Nat) : Config :=
  ⟨c.bits ||| mask⟩

/-- `Config::with_low`: `bits & !mask` (complement taken in 16 bits). -/
def Config.with_low (c : Config) (mask : Nat) : Config :=
  ⟨c.bits &&& (65535 ^^^ mask)⟩

namespace BitFlags

def D15 : Nat := 1 <<< 15
def D14 : Nat := 1 <<< 14
def D13 : Nat := 1 <<< 13
def B28 : Nat := 1 <<< 13
def HLB : Nat := 1 <<< 12
def FSELECT : Nat := 1 <<< 11
def PSELECT : Nat := 1 <<< 10
def PIN_SW : Nat := 1 <<< 9
def RESET : Nat := 1 <<< 8
def SLEEP_MCLK : Nat := 1 <<< 7
def SLEEP_DAC : Nat := 1 <<< 6
def OPBITEN : Nat := 1 <<< 5
def SIGN_PIB : Nat := 1 <<< 4
def DIV2 : Nat := 1 <<< 3
def MODE : Nat := 1 <<< 1

end BitFlags

/-- One attempted transport primitive, as recorded on the trace.
`spiWrite` carries the byte sequence handed to `SpiBus::write`;
`spiWriteWord` is the 16-bit-word bus write of the legacy `lib.rs` driver. -/
inductive Event where
  | csLow
  | csHigh
  | spiWrite (bytes : List Nat)
  | spiWriteWord (word : Nat)
deriving DecidableEq, Repr

/-- The error enum `Error<E>` with the payload type `E` modelled as `Nat`. -/
inductive Err where
  | InvalidArgument
  | Spi (e : Nat)
  | CSPinError (e : Nat)
deriving DecidableEq, Repr

/-- Hardware model: remaining fault script plus trace of attempted
primitives. -/
structure Hw where
  faults : List (Option Nat)
  trace : List Event
deriving DecidableEq, Repr

/-- Attempt one primitive: record it on the trace and consume one fault
script entry (an empty script means every call succeeds). -/
def Hw.step (hw : Hw) (ev : Event) : Hw × Option Nat :=
  (⟨hw.faults.tail, hw.trace ++ [ev]⟩, hw.faults.headD none)

/-- Device handle: cached control `Config` plus the owned transport. -/
structure St where
  control : Config
  hw : Hw
deriving DecidableEq, Repr

/-- `DataFormat` payload enum. -/
inductive DataFormat where
  | U32 (data : Nat)
  | U16 (data : Nat)
  | U8 (data : Nat)
deriving DecidableEq, Repr

/-- `to_be_bytes` of the matched payload width (big-endian). -/
def beBytes : DataFormat → List Nat
  | .U32 d => [(d >>> 24) &&& 255, (d >>> 16) &&& 255, (d >>> 8) &&& 255, d &&& 255]
  | .U16 d => [(d >>> 8) &&& 255, d &&& 255]
  | .U8 d => [d &&& 255]

/-- `fn write(&mut self, payload: DataFormat)` (common.rs:236-254): assert
CS, one SPI byte write, deassert CS; the SPI error is held and returned
after the CS deassert, and a failing deassert replaces it. -/
def write (payload : DataFormat) (hw : Hw) : Hw × Except Err Unit :=
  let (hw1, r1) := hw.step .csLow
  match r1 with
  | some e => (hw1, .error (.CSPinError e))
  | none =>
    let (hw2, r2) := hw1.step (.spiWrite (beBytes payload))
    let result : Except Err Unit :=
      match r2 with
      | some e => .error (.Spi e)
      | none => .ok ()
    let (hw3, r3) := hw2.step .csHigh
    match r3 with
    | some e => (hw3, .error (.CSPinError e))
    | none => (hw3, result)

/-- `fn write_data(&mut self, reg: u16, payload: u32)` (common.rs:256-267):
assert CS, write the LSB-tagged word then the MSB-tagged word, deassert
CS; each step propagates its error immediately via `?`. -/
def write_data (reg : Nat) (payload : Nat) (hw : Hw) : Hw × Except Err Unit :=
  let (hw1, r1) := hw.step .csLow
  match r1 with
  | some e => (hw1, .error (.CSPinError e))
  | none =>
    let msb := reg ||| ((payload &&& 0x0FFFC000) >>> 14)
    let lsb := reg ||| (payload &&& 0x00003FFF)
    let (hw2, r2) := hw1.step (.spiWrite (beBytes (.U16 lsb)))
    match r2 with
    | some e => (hw2, .error (.Spi e))
    | none =>
      let (hw3, r3) := hw2.step (.spiWrite (beBytes (.U16 msb)))
      match r3 with
      | some e => (hw3, .error (.Spi e))
      | none =>
        let (hw4, r4) := hw3.step .csHigh
        match r4 with
        | some e => (hw4, .error (.CSPinError e))
        | none => (hw4, .ok ())

/-- `fn write_control` (common.rs:229-234): mask to 14 bits, write as U16,
and only on success replace the cached control. -/
def write_control (control : Config) (s : St) : St × Except Err Unit :=
  let payload := control.bits &&& 16383
  match write (.U16 payload) s.hw with
  | (hw1, .ok _) => (⟨control, hw1⟩, .ok ())
  | (hw1, .error e) => (⟨s.control, hw1⟩, .error e)

/-- `fn write_control_if_different` (common.rs:221-227). -/
def write_control_if_different (control : Config) (s : St) : St × Except Err Unit :=
  if control ≠ s.control then write_control control s else (s, .ok ())

/-- `fn check_value_fits` (common.rs:89-98): `value >= (1 << bit_count)`
rejects with `InvalidArgument`. -/
def check_value_fits (value bit_count : Nat) : Except Err Unit :=
  if value ≥ (1 <<< bit_count) then .error .InvalidArgument else .ok ()

inductive FrequencyRegister where
  | F0
  | F1
deriving DecidableEq, Repr

inductive PhaseRegister where
  | P0
  | P1
deriving DecidableEq, Repr

inductive PoweredDown where
  | Nothing
  | Dac
  | InternalClock
  | DacAndInternalClock
deriving DecidableEq, Repr

inductive OutputWaveform where
  | Sinusoidal
  | Triangle
  | SquareMsbOfDac
  | SquareMsbOfDacDiv2
deriving DecidableEq, Repr

/-- `fn get_freq_register_bits` (common.rs:116-121). -/
def get_freq_register_bits : FrequencyRegister → Nat
  | .F0 => BitFlags.D14
  | .F1 => BitFlags.D15

/-- `fn disable` (common.rs:75-78). -/
def disable (s : St) : St × Except Err Unit :=
  write_control (s.control.with_high BitFlags.RESET) s

/-- `fn reset` (common.rs:66-68): defined as exactly `disable`. -/
def reset (s : St) : St × Except Err Unit :=
  disable s

/-- `fn enable` (common.rs:84-87). -/
def enable (s : St) : St × Except Err Unit :=
  write_control (s.control.with_low BitFlags.RESET) s

/-- `fn set_frequency` (common.rs:104-114). -/
def set_frequency (register : FrequencyRegister) (value : Nat) (s : St) :
    St × Except Err Unit :=
  match check_value_fits value 28 with
  | .error e => (s, .error e)
  | .ok _ =>
    let control := s.control.with_high BitFlags.B28
    match write_control_if_different control s with
    | (s1, .error e) => (s1, .error e)
    | (s1, .ok _) =>
      let (hw1, r) := write_data (get_freq_register_bits register) value s1.hw
      (⟨s1.control, hw1⟩, r)

/-- `fn set_frequency_msb` (common.rs:127-140). -/
def set_frequency_msb (register : FrequencyRegister) (value : Nat) (s : St) :
    St × Except Err Unit :=
  match check_value_fits value 14 with
  | .error e => (s, .error e)
  | .ok _ =>
    let control := (s.control.with_low BitFlags.B28).with_high BitFlags.HLB
    match write_control_if_different control s with
    | (s1, .error e) => (s1, .error e)
    | (s1, .ok _) =>
      let (hw1, r) := write (.U16 (get_freq_register_bits register ||| value)) s1.hw
      (⟨s1.control, hw1⟩, r)

/-- `fn set_frequency_lsb` (common.rs:146-156). -/
def set_frequency_lsb (register : FrequencyRegister) (value : Nat) (s : St) :
    St × Except Err Unit :=
  match check_value_fits value 14 with
  | .error e => (s, .error e)
  | .ok _ =>
    let control := (s.control.with_low BitFlags.B28).with_low BitFlags.HLB
    match write_control_if_different control s with
    | (s1, .error e) => (s1, .error e)
    | (s1, .ok _) =>
      let (hw1, r) := write (.U16 (get_freq_register_bits register ||| value)) s1.hw
      (⟨s1.control, hw1⟩, r)

/-- `fn select_frequency` (common.rs:162-168). -/
def select_frequency (register : FrequencyRegister) (s : St) : St × Except Err Unit :=
  let control := match register with
    | .F0 => s.control.with_low BitFlags.FSELECT
    | .F1 => s.control.with_high BitFlags.FSELECT
  write_control control s

/-- `fn set_phase` (common.rs:173-181). -/
def set_phase (register : PhaseRegister) (value : Nat) (s : St) : St × Except Err Unit :=
  match check_value_fits value 12 with
  | .error e => (s, .error e)
  | .ok _ =>
    let value1 := value ||| BitFlags.D14 ||| BitFlags.D15
    let value2 := match register with
      | .P0 => value1
      | .P1 => value1 ||| BitFlags.D13
    let (hw1, r) := write (.U16 value2) s.hw
    (⟨s.control, hw1⟩, r)

/-- `fn select_phase` (common.rs:187-193). -/
def select_phase (register : PhaseRegister) (s : St) : St × Except Err Unit :=
  let control := match register with
    | .P0 => s.control.with_low BitFlags.PSELECT
    | .P1 => s.control.with_high BitFlags.PSELECT
  write_control control s

/-- `fn set_powered_down` (common.rs:199-219). -/
def set_powered_down (config : PoweredDown) (s : St) : St × Except Err Unit :=
  let control := match config with
    | .Nothing => (s.control.with_low BitFlags.SLEEP_MCLK).with_low BitFlags.SLEEP_DAC
    | .Dac => (s.control.with_low BitFlags.SLEEP_MCLK).with_high BitFlags.SLEEP_DAC
    | .InternalClock =>
        (s.control.with_high BitFlags.SLEEP_MCLK).with_low BitFlags.SLEEP_DAC
    | .DacAndInternalClock =>
        (s.control.with_high BitFlags.SLEEP_MCLK).with_high BitFlags.SLEEP_DAC
  write_control control s

/-- `fn set_output_waveform` (ad9833_ad9837.rs:25-47). -/
def set_output_waveform (waveform : OutputWaveform) (s : St) : St × Except Err Unit :=
  let control := match waveform with
    | .Sinusoidal => (s.control.with_low BitFlags.OPBITEN).with_low BitFlags.MODE
    | .Triangle => (s.control.with_low BitFlags.OPBITEN).with_high BitFlags.MODE
    | .SquareMsbOfDac =>
        ((s.control.with_high BitFlags.OPBITEN).with_low BitFlags.MODE).with_high
          BitFlags.DIV2
    | .SquareMsbOfDacDiv2 =>
        ((s.control.with_high BitFlags.OPBITEN).with_low BitFlags.MODE).with_low
          BitFlags.DIV2
  write_control control s

/-- `fn create` (common.rs:40-49): cached control holds only the RESET bit. -/
def create : Config :=
  ⟨BitFlags.RESET⟩

/-- A freshly constructed device attached to a transport with the given
fault script and an empty trace. -/
def initSt (faults : List (Option Nat)) : St :=
  ⟨create, ⟨faults, []⟩⟩

/-- Number of SPI transfers on a trace. -/
def spiCount : List Event → Nat
  | [] => 0
  | .spiWrite _ :: rest => spiCount rest + 1
  | .spiWriteWord _ :: rest => spiCount rest + 1
  | _ :: rest => spiCount rest

/-- The public operations of the device façade, reified so that an
invariant can be stated over all of them at once. -/
inductive Op where
  | opEnable
  | opDisable
  | opReset
  | opSetFrequency (r : FrequencyRegister) (v : Nat)
  | opSetFrequencyMsb (r : FrequencyRegister) (v : Nat)
  | opSetFrequencyLsb (r : FrequencyRegister) (v : Nat)
  | opSelectFrequency (r : FrequencyRegister)
  | opSetPhase (p : PhaseRegister) (v : Nat)
  | opSelectPhase (p : PhaseRegister)
  | opSetPoweredDown (pd : PoweredDown)
  | opSetOutputWaveform (w : OutputWaveform)
deriving DecidableEq, Repr

def runOp : Op → St → St × Except Err Unit
  | .opEnable => enable
  | .opDisable => disable
  | .opReset => reset
  | .opSetFrequency r v => set_frequency r v
  | .opSetFrequencyMsb r v => set_frequency_msb r v
  | .opSetFrequencyLsb r v => set_frequency_lsb r v
  | .opSelectFrequency r => select_frequency r
  | .opSetPhase p v => set_phase p v
  | .opSelectPhase p => select_phase p
  | .opSetPoweredDown pd => set_powered_down pd
  | .opSetOutputWaveform w => set_output_waveform w

namespace Legacy

/-- `fn write_control` of the legacy driver (lib.rs:131-140): assert CS
(infallible in the old pin trait), one 16-bit-word bus write, deassert CS,
then unconditionally `self.control = control` before returning the write's
result. -/
def write_control (control : Config) (s : St) : St × Except Err Unit :=
  let hw1 : Hw := ⟨s.hw.faults, s.hw.trace ++ [Event.csLow]⟩
  let payload := control.bits &&& 16383
  let (hw2, r) := hw1.step (.spiWriteWord payload)
  let result : Except Err Unit :=
    match r with
    | some e => .error (.Spi e)
    | none => .ok ()
  let hw3 : Hw := ⟨hw2.faults, hw2.trace ++ [Event.csHigh]⟩
  (⟨control, hw3⟩, result)

end Legacy

/-! Helper lemmas about the transport and protocol layer. -/

theorem one_shl (n : Nat) : 1 <<< n = 2 ^ n := by
  rw [Nat.shiftLeft_eq, one_mul]

theorem spiCount_append (a b : List Event) :
    spiCount (a ++ b) = spiCount a + spiCount b := by
  induction a with
  | nil => simp [spiCount]
  | cons ev rest ih => cases ev <;> simp [spiCount, ih] <;> omega

/-- A fault-free `write` succeeds and frames exactly one SPI transfer. -/
theorem write_ok (p : DataFormat) (t : List Event) :
    write p ⟨[], t⟩ =
      (⟨[], t ++ [.csLow, .spiWrite (beBytes p), .csHigh]⟩, .ok ()) := by
  simp [write, Hw.step]

/-- A fault-free `write_data` succeeds, transmitting the LSB-tagged word
first and the MSB-tagged word second inside one chip-select frame. -/
theorem write_data_ok (reg v : Nat) (t : List Event) :
    write_data reg v ⟨[], t⟩ =
      (⟨[], t ++ [.csLow,
          .spiWrite (beBytes (.U16 (reg ||| (v &&& 16383)))),
          .spiWrite (beBytes (.U16 (reg ||| ((v &&& 0x0FFFC000) >>> 14)))),
          .csHigh]⟩, .ok ()) := by
  simp [write_data, Hw.step]

/-- A fault-free `write_control` succeeds, transmits the masked word and
replaces the cached control. -/
theorem write_control_ok (c ctl : Config) (t : List Event) :
    write_control c ⟨ctl, ⟨[], t⟩⟩ =
      (⟨c, ⟨[], t ++ [.csLow, .spiWrite (beBytes (.U16 (c.bits &&& 16383))),
          .csHigh]⟩⟩, .ok ()) := by
  simp [write_control, write_ok]

/-- After `write_control` the cached control is either the new word (on
success) or the old one (on failure). -/
theorem write_control_control (c : Config) (s : St) :
    ((write_control c s).1).control = c ∨ ((write_control c s).1).control = s.control := by
  rcases h : write (.U16 (c.bits &&& 16383)) s.hw with ⟨hw1, r⟩
  cases r <;> simp [write_control, h]

theorem wcid_control (c : Config) (s : St) :
    ((write_control_if_different c s).1).control = c ∨
      ((write_control_if_different c s).1).control = s.control := by
  unfold write_control_if_different
  split
  · exact write_control_control c s
  · right; rfl

/-- `write` never reports `InvalidArgument`. -/
theorem write_snd_ne_ia (p : DataFormat) (hw : Hw) :
    (write p hw).2 ≠ .error .InvalidArgument := by
  rcases hw with ⟨fs, t⟩
  rcases fs with _ | ⟨f0, fs⟩
  · simp [write, Hw.step]
  rcases f0 with _ | e0
  · rcases fs with _ | ⟨f1, fs⟩
    · simp [write, Hw.step]
    rcases f1 with _ | e1
    · rcases fs with _ | ⟨f2, fs⟩
      · simp [write, Hw.step]
      rcases f2 with _ | e2 <;> simp [write, Hw.step]
    · rcases fs with _ | ⟨f2, fs⟩
      · simp [write, Hw.step]
      rcases f2 with _ | e2 <;> simp [write, Hw.step]
  · simp [write, Hw.step]

/-- `write_data` never reports `InvalidArgument`. -/
theorem write_data_snd_ne_ia (reg v : Nat) (hw : Hw) :
    (write_data reg v hw).2 ≠ .error .InvalidArgument := by
  rcases hw with ⟨fs, t⟩
  rcases fs with _ | ⟨f0, fs⟩
  · simp [write_data, Hw.step]
  rcases f0 with _ | e0
  · rcases fs with _ | ⟨f1, fs⟩
    · simp [write_data, Hw.step]
    rcases f1 with _ | e1
    · rcases fs with _ | ⟨f2, fs⟩
      · simp [write_data, Hw.step]
      rcases f2 with _ | e2
      · rcases fs with _ | ⟨f3, fs⟩
        · simp [write_data, Hw.step]
        rcases f3 with _ | e3 <;> simp [write_data, Hw.step]
      · simp [write_data, Hw.step]
    · simp [write_data, Hw.step]
  · simp [write_data, Hw.step]

theorem write_control_snd_ne_ia (c : Config) (s : St) :
    (write_control c s).2 ≠ .error .InvalidArgument := by
  have h0 := write_snd_ne_ia (.U16 (c.bits &&& 16383)) s.hw
  rcases h : write (.U16 (c.bits &&& 16383)) s.hw with ⟨hw1, r⟩
  rw [h] at h0
  cases r <;> simp_all [write_control, h]

theorem wcid_snd_ne_ia (c : Config) (s : St) :
    (write_control_if_different c s).2 ≠ .error .InvalidArgument := by
  unfold write_control_if_different
  split
  · exact write_control_snd_ne_ia c s
  · simp

/-! Bit-level facts about the 14-bit split and the address tags. -/

/-- Masking with `0x0FFFC000` before the shift is the same as a plain shift
by 14 for values that fit in 28 bits. -/
theorem mask_shift_eq {v : Nat} (hv : v < 2 ^ 28) :
    (v &&& 0x0FFFC000) >>> 14 = v >>> 14 := by
  have hmask : (0x0FFFC000 : Nat) = (2 ^ 14 - 1) <<< 14 := by
    norm_num [Nat.shiftLeft_eq]
  apply Nat.eq_of_testBit_eq
  intro i
  rw [Nat.testBit_shiftRight, Nat.testBit_shiftRight, Nat.testBit_and, hmask,
    Nat.testBit_shiftLeft, Nat.testBit_two_pow_sub_one]
  by_cases hi : i < 14
  · simp [hi, Nat.add_sub_cancel_left]
  · have hvb : v.testBit (14 + i) = false :=
      Nat.testBit_lt_two_pow
        (lt_of_lt_of_le hv (Nat.pow_le_pow_right (by norm_num) (by omega)))
    simp [hvb]

theorem shr14_lt {v : Nat} (hv : v < 2 ^ 28) : v >>> 14 < 2 ^ 14 := by
  rw [Nat.shiftRight_eq_div_pow]
  apply Nat.div_lt_of_lt_mul
  calc v < 2 ^ 28 := hv
    _ = 2 ^ 14 * 2 ^ 14 := by norm_num

/-- Removing a disjoint address tag with the 14-bit mask recovers the
payload. -/
theorem or_and_mask {reg w : Nat} (hreg : reg &&& 16383 = 0) (hw : w < 2 ^ 14) :
    (reg ||| w) &&& 16383 = w := by
  have h16383 : (16383 : Nat) = 2 ^ 14 - 1 := by norm_num
  apply Nat.eq_of_testBit_eq
  intro i
  rw [Nat.testBit_and, Nat.testBit_or, h16383, Nat.testBit_two_pow_sub_one]
  have hregbit : (reg.testBit i && decide (i < 14)) = false := by
    have h0 : Nat.testBit (reg &&& 16383) i = false := by
      rw [hreg]; exact Nat.zero_testBit i
    rw [Nat.testBit_and, h16383, Nat.testBit_two_pow_sub_one] at h0
    exact h0
  by_cases hi : i < 14
  · have hr : reg.testBit i = false := by simpa [hi] using hregbit
    simp [hr, hi]
  · have hwb : w.testBit i = false :=
      Nat.testBit_lt_two_pow
        (lt_of_lt_of_le hw (Nat.pow_le_pow_right (by norm_num) (by omega)))
    simp [hwb, hi]

/-- Recombining the two 14-bit halves recovers the original value. -/
theorem recombine (v : Nat) : ((v >>> 14) <<< 14) ||| (v &&& 16383) = v := by
  have h16383 : (16383 : Nat) = 2 ^ 14 - 1 := by norm_num
  apply Nat.eq_of_testBit_eq
  intro i
  rw [Nat.testBit_or, Nat.testBit_shiftLeft, Nat.testBit_shiftRight,
    Nat.testBit_and, h16383, Nat.testBit_two_pow_sub_one]
  by_cases hi : 14 ≤ i
  · have h14 : 14 + (i - 14) = i := by omega
    have hlt : ¬ i < 14 := by omega
    simp [hi, h14, hlt]
  · have hlt : i < 14 := by omega
    simp [hi, hlt]

theorem freq_tag_disjoint (r : FrequencyRegister) :
    get_freq_register_bits r &&& 16383 = 0 := by
  cases r <;> decide

theorem shr_and_255 (x k : Nat) : (x >>> k) &&& 255 = x / 2 ^ k % 2 ^ 8 := by
  have h255 : (255 : Nat) = 2 ^ 8 - 1 := by norm_num
  rw [Nat.shiftRight_eq_div_pow, h255, Nat.and_pow_two_sub_one_eq_mod]

theorem and_255 (x : Nat) : x &&& 255 = x % 2 ^ 8 := by
  have h255 : (255 : Nat) = 2 ^ 8 - 1 := by norm_num
  rw [h255, Nat.and_pow_two_sub_one_eq_mod]

theorem and_16383 (x : Nat) : x &&& 16383 = x % 2 ^ 14 := by
  have h : (16383 : Nat) = 2 ^ 14 - 1 := by norm_num
  rw [h, Nat.and_pow_two_sub_one_eq_mod]

/-! Preservation of the 14-bit bound on the cached control word. -/

theorem with_high_lt {c : Config} (mask : Nat) (hc : c.bits < 2 ^ 14)
    (hm : mask < 2 ^ 14) : (c.with_high mask).bits < 2 ^ 14 :=
  Nat.or_lt_two_pow hc hm

theorem with_low_lt {c : Config} (mask : Nat) (hc : c.bits < 2 ^ 14) :
    (c.with_low mask).bits < 2 ^ 14 :=
  lt_of_le_of_lt Nat.and_le_left hc

theorem write_control_preserves_lt {c : Config} {s : St} (hc : c.bits < 2 ^ 14)
    (hs : s.control.bits < 2 ^ 14) :
    ((write_control c s).1).control.bits < 2 ^ 14 := by
  rcases write_control_control c s with h | h <;> rw [h] <;> assumption

theorem wcid_preserves_lt {c : Config} {s : St} (hc : c.bits < 2 ^ 14)
    (hs : s.control.bits < 2 ^ 14) :
    ((write_control_if_different c s).1).control.bits < 2 ^ 14 := by
  rcases wcid_control c s with h | h <;> rw [h] <;> assumption

theorem set_frequency_control_lt {r : FrequencyRegister} {v : Nat} {s : St}
    (hs : s.control.bits < 2 ^ 14) :
    ((set_frequency r v s).1).control.bits < 2 ^ 14 := by
  cases h : check_value_fits v 28 with
  | error e => simp [set_frequency, h]; exact hs
  | ok u =>
    rcases h2 : write_control_if_different (s.control.with_high BitFlags.B28) s
      with ⟨s1, r1⟩
    have hlt : s1.control.bits < 2 ^ 14 := by
      have hp : ((write_control_if_different (s.control.with_high BitFlags.B28)
          s).1).control.bits < 2 ^ 14 :=
        wcid_preserves_lt (with_high_lt BitFlags.B28 hs (by decide)) hs
      rw [h2] at hp
      exact hp
    rcases h3 : write_data (get_freq_register_bits r) v s1.hw with ⟨hw1, rr⟩
    cases r1 <;> simp [set_frequency, h, h2, h3] <;> exact hlt

theorem set_frequency_msb_control_lt {r : FrequencyRegister} {v : Nat} {s : St}
    (hs : s.control.bits < 2 ^ 14) :
    ((set_frequency_msb r v s).1).control.bits < 2 ^ 14 := by
  cases h : check_value_fits v 14 with
  | error e => simp [set_frequency_msb, h]; exact hs
  | ok u =>
    rcases h2 : write_control_if_different
      ((s.control.with_low BitFlags.B28).with_high BitFlags.HLB) s with ⟨s1, r1⟩
    have hlt : s1.control.bits < 2 ^ 14 := by
      have hp : ((write_control_if_different
          ((s.control.with_low BitFlags.B28).with_high BitFlags.HLB)
          s).1).control.bits < 2 ^ 14 :=
        wcid_preserves_lt
          (with_high_lt BitFlags.HLB (with_low_lt BitFlags.B28 hs) (by decide)) hs
      rw [h2] at hp
      exact hp
    rcases h3 : write (.U16 (get_freq_register_bits r ||| v)) s1.hw with ⟨hw1, rr⟩
    cases r1 <;> simp [set_frequency_msb, h, h2, h3] <;> exact hlt

theorem set_frequency_lsb_control_lt {r : FrequencyRegister} {v : Nat} {s : St}
    (hs : s.control.bits < 2 ^ 14) :
    ((set_frequency_lsb r v s).1).control.bits < 2 ^ 14 := by
  cases h : check_value_fits v 14 with
  | error e => simp [set_frequency_lsb, h]; exact hs
  | ok u =>
    rcases h2 : write_control_if_different
      ((s.control.with_low BitFlags.B28).with_low BitFlags.HLB) s with ⟨s1, r1⟩
    have hlt : s1.control.bits < 2 ^ 14 := by
      have hp : ((write_control_if_different
          ((s.control.with_low BitFlags.B28).with_low BitFlags.HLB)
          s).1).control.bits < 2 ^ 14 :=
        wcid_preserves_lt (with_low_lt BitFlags.HLB (with_low_lt BitFlags.B28 hs)) hs
      rw [h2] at hp
      exact hp
    rcases h3 : write (.U16 (get_freq_register_bits r ||| v)) s1.hw with ⟨hw1, rr⟩
    cases r1 <;> simp [set_frequency_lsb, h, h2, h3] <;> exact hlt

theorem set_phase_control_eq (p : PhaseRegister) (v : Nat) (s : St) :
    ((set_phase p v s).1).control = s.control := by
  cases h : check_value_fits v 12 with
  | error e => simp [set_phase, h]
  | ok u =>
    rcases h3 : write (.U16 (match p with
      | .P0 => v ||| BitFlags.D14 ||| BitFlags.D15
      | .P1 => v ||| BitFlags.D14 ||| BitFlags.D15 ||| BitFlags.D13)) s.hw
      with ⟨hw1, rr⟩
    cases p <;> simp [set_phase, h, h3]

theorem runOp_control_lt (op : Op) (s : St) (hs : s.control.bits < 2 ^ 14) :
    ((runOp op s).1).control.bits < 2 ^ 14 := by
  cases op with
  | opEnable => exact write_control_preserves_lt (with_low_lt _ hs) hs
  | opDisable => exact write_control_preserves_lt (with_high_lt _ hs (by decide)) hs
  | opReset => exact write_control_preserves_lt (with_high_lt _ hs (by decide)) hs
  | opSetFrequency r v => exact set_frequency_control_lt hs
  | opSetFrequencyMsb r v => exact set_frequency_msb_control_lt hs
  | opSetFrequencyLsb r v => exact set_frequency_lsb_control_lt hs
  | opSelectFrequency r =>
    cases r with
    | F0 => exact write_control_preserves_lt (with_low_lt _ hs) hs
    | F1 => exact write_control_preserves_lt (with_high_lt _ hs (by decide)) hs
  | opSetPhase p v =>
    rw [show ((runOp (.opSetPhase p v) s).1).control = s.control from
      set_phase_control_eq p v s]
    exact hs
  | opSelectPhase p =>
    cases p with
    | P0 => exact write_control_preserves_lt (with_low_lt _ hs) hs
    | P1 => exact write_control_preserves_lt (with_high_lt _ hs (by decide)) hs
  | opSetPoweredDown pd =>
    cases pd with
    | Nothing => exact write_control_preserves_lt (with_low_lt _ (with_low_lt _ hs)) hs
    | Dac => exact write_control_preserves_lt (with_high_lt _ (with_low_lt _ hs) (by decide)) hs
    | InternalClock =>
      exact write_control_preserves_lt (with_low_lt _ (with_high_lt _ hs (by decide))) hs
    | DacAndInternalClock =>
      exact write_control_preserves_lt
        (with_high_lt _ (with_high_lt _ hs (by decide)) (by decide)) hs
  | opSetOutputWaveform w =>
    cases w with
    | Sinusoidal => exact write_control_preserves_lt (with_low_lt _ (with_low_lt _ hs)) hs
    | Triangle =>
      exact write_control_preserves_lt (with_high_lt _ (with_low_lt _ hs) (by decide)) hs
    | SquareMsbOfDac =>
      exact write_control_preserves_lt
        (with_high_lt _ (with_low_lt _ (with_high_lt _ hs (by decide))) (by decide)) hs
    | SquareMsbOfDacDiv2 =>
      exact write_control_preserves_lt
        (with_low_lt _ (with_low_lt _ (with_high_lt _ hs (by decide)))) hs

/-! Width-check reductions. -/

theorem check_fits_true {v k : Nat} (h : 2 ^ k ≤ v) :
    check_value_fits v k = .error .InvalidArgument := by
  simp [check_value_fits, one_shl, ge_iff_le, h]

theorem check_fits_false {v k : Nat} (h : ¬ 2 ^ k ≤ v) :
    check_value_fits v k = .ok () := by
  simp [check_value_fits, one_shl, ge_iff_le, h]

theorem set_frequency_err {fr : FrequencyRegister} {v : Nat} {s : St}
    (h : 2 ^ 28 ≤ v) : set_frequency fr v s = (s, .error .InvalidArgument) := by
  simp [set_frequency, check_fits_true h]

theorem set_frequency_msb_err {fr : FrequencyRegister} {v : Nat} {s : St}
    (h : 2 ^ 14 ≤ v) : set_frequency_msb fr v s = (s, .error .InvalidArgument) := by
  simp [set_frequency_msb, check_fits_true h]

theorem set_frequency_lsb_err {fr : FrequencyRegister} {v : Nat} {s : St}
    (h : 2 ^ 14 ≤ v) : set_frequency_lsb fr v s = (s, .error .InvalidArgument) := by
  simp [set_frequency_lsb, check_fits_true h]

theorem set_phase_err {pr : PhaseRegister} {v : Nat} {s : St}
    (h : 2 ^ 12 ≤ v) : set_phase pr v s = (s, .error .InvalidArgument) := by
  simp [set_phase, check_fits_true h]

theorem set_frequency_ne_ia {fr : FrequencyRegister} {v : Nat} {s : St}
    (h : ¬ 2 ^ 28 ≤ v) :
    (set_frequency fr v s).2 ≠ .error .InvalidArgument := by
  rcases h2 : write_control_if_different (s.control.with_high BitFlags.B28) s
    with ⟨s1, r1⟩
  have hr1 : r1 ≠ .error .InvalidArgument := by
    have hq := wcid_snd_ne_ia (s.control.with_high BitFlags.B28) s
    rw [h2] at hq
    exact hq
  rcases h3 : write_data (get_freq_register_bits fr) v s1.hw with ⟨hw1, rr⟩
  have hrr : rr ≠ .error .InvalidArgument := by
    have hq := write_data_snd_ne_ia (get_freq_register_bits fr) v s1.hw
    rw [h3] at hq
    exact hq
  cases r1 with
  | error e => simpa [set_frequency, check_fits_false h, h2] using hr1
  | ok u => simpa [set_frequency, check_fits_false h, h2, h3] using hrr

theorem set_frequency_msb_ne_ia {fr : FrequencyRegister} {v : Nat} {s : St}
    (h : ¬ 2 ^ 14 ≤ v) :
    (set_frequency_msb fr v s).2 ≠ .error .InvalidArgument := by
  rcases h2 : write_control_if_different
    ((s.control.with_low BitFlags.B28).with_high BitFlags.HLB) s with ⟨s1, r1⟩
  have hr1 : r1 ≠ .error .InvalidArgument := by
    have hq := wcid_snd_ne_ia ((s.control.with_low BitFlags.B28).with_high BitFlags.HLB) s
    rw [h2] at hq
    exact hq
  rcases h3 : write (.U16 (get_freq_register_bits fr ||| v)) s1.hw with ⟨hw1, rr⟩
  have hrr : rr ≠ .error .InvalidArgument := by
    have hq := write_snd_ne_ia (.U16 (get_freq_register_bits fr ||| v)) s1.hw
    rw [h3] at hq
    exact hq
  cases r1 with
  | error e => simpa [set_frequency_msb, check_fits_false h, h2] using hr1
  | ok u => simpa [set_frequency_msb, check_fits_false h, h2, h3] using hrr

theorem set_frequency_lsb_ne_ia {fr : FrequencyRegister} {v : Nat} {s : St}
    (h : ¬ 2 ^ 14 ≤ v) :
    (set_frequency_lsb fr v s).2 ≠ .error .InvalidArgument := by
  rcases h2 : write_control_if_different
    ((s.control.with_low BitFlags.B28).with_low BitFlags.HLB) s with ⟨s1, r1⟩
  have hr1 : r1 ≠ .error .InvalidArgument := by
    have hq := wcid_snd_ne_ia ((s.control.with_low BitFlags.B28).with_low BitFlags.HLB) s
    rw [h2] at hq
    exact hq
  rcases h3 : write (.U16 (get_freq_register_bits fr ||| v)) s1.hw with ⟨hw1, rr⟩
  have hrr : rr ≠ .error .InvalidArgument := by
    have hq := write_snd_ne_ia (.U16 (get_freq_register_bits fr ||| v)) s1.hw
    rw [h3] at hq
    exact hq
  cases r1 with
  | error e => simpa [set_frequency_lsb, check_fits_false h, h2] using hr1
  | ok u => simpa [set_frequency_lsb, check_fits_false h, h2, h3] using hrr

theorem set_phase_ne_ia {pr : PhaseRegister} {v : Nat} {s : St}
    (h : ¬ 2 ^ 12 ≤ v) :
    (set_phase pr v s).2 ≠ .error .InvalidArgument := by
  cases pr with
  | P0 =>
    rcases h3 : write (.U16 (v ||| BitFlags.D14 ||| BitFlags.D15)) s.hw
      with ⟨hw1, rr⟩
    have hrr : rr ≠ .error .InvalidArgument := by
      have hq := write_snd_ne_ia (.U16 (v ||| BitFlags.D14 ||| BitFlags.D15)) s.hw
      rw [h3] at hq
      exact hq
    simpa [set_phase, check_fits_false h, h3] using hrr
  | P1 =>
    rcases h3 : write (.U16 (v ||| BitFlags.D14 ||| BitFlags.D15 ||| BitFlags.D13))
      s.hw with ⟨hw1, rr⟩
    have hrr : rr ≠ .error .InvalidArgument := by
      have hq := write_snd_ne_ia
        (.U16 (v ||| BitFlags.D14 ||| BitFlags.D15 ||| BitFlags.D13)) s.hw
      rw [h3] at hq
      exact hq
    simpa [set_phase, check_fits_false h, h3] using hrr

/-- C1: every value-taking setter rejects with `InvalidArgument` exactly
the values that do not fit its field (2^28 for `set_frequency`, 2^14 for
`set_frequency_msb`/`set_frequency_lsb`, 2^12 for `set_phase`, boundary
included), and on rejection the device state — cached `Config`, fault
script and trace (hence chip-select and SPI activity) — is untouched. -/
theorem width_checks_reject_oversized_values :
    ∀ (s : St) (fr : FrequencyRegister) (pr : PhaseRegister) (v : Nat),
      ((set_frequency fr v s).2 = .error .InvalidArgument ↔ 2 ^ 28 ≤ v)
      ∧ (2 ^ 28 ≤ v → set_frequency fr v s = (s, .error .InvalidArgument))
      ∧ ((set_frequency_msb fr v s).2 = .error .InvalidArgument ↔ 2 ^ 14 ≤ v)
      ∧ (2 ^ 14 ≤ v → set_frequency_msb fr v s = (s, .error .InvalidArgument))
      ∧ ((set_frequency_lsb fr v s).2 = .error .InvalidArgument ↔ 2 ^ 14 ≤ v)
      ∧ (2 ^ 14 ≤ v → set_frequency_lsb fr v s = (s, .error .InvalidArgument))
      ∧ ((set_phase pr v s).2 = .error .InvalidArgument ↔ 2 ^ 12 ≤ v)
      ∧ (2 ^ 12 ≤ v → set_phase pr v s = (s, .error .InvalidArgument)) := by
  intro s fr pr v
  refine ⟨⟨fun hia => ?_, fun h => by rw [set_frequency_err h]⟩,
    fun h => set_frequency_err h,
    ⟨fun hia => ?_, fun h => by rw [set_frequency_msb_err h]⟩,
    fun h => set_frequency_msb_err h,
    ⟨fun hia => ?_, fun h => by rw [set_frequency_lsb_err h]⟩,
    fun h => set_frequency_lsb_err h,
    ⟨fun hia => ?_, fun h => by rw [set_phase_err h]⟩,
    fun h => set_phase_err h⟩
  · by_contra h
    exact set_frequency_ne_ia h hia
  · by_contra h
    exact set_frequency_msb_ne_ia h hia
  · by_contra h
    exact set_frequency_lsb_ne_ia h hia
  · by_contra h
    exact set_phase_ne_ia h hia

theorem width_checks_reject_oversized_values_witness :
    set_frequency .F0 (2 ^ 28) (initSt []) = (initSt [], .error .InvalidArgument)
    ∧ set_phase .P1 4096 (initSt []) = (initSt [], .error .InvalidArgument) :=
  ⟨(width_checks_reject_oversized_values (initSt []) .F0 .P0 (2 ^ 28)).2.1
      (le_refl _),
   (width_checks_reject_oversized_values (initSt []) .F0 .P1 4096).2.2.2.2.2.2.2
      (by norm_num)⟩

/-- C2: the legacy `lib.rs` `write_control` updates the cached `Config`
even when the SPI transfer fails (here: to the new word `0x0000` although
the bus faulted), while the `common.rs` `write_control` under the same
fault leaves the cache at its pre-call value `0x0100`; so the claim that
every control write leaves the cache unchanged on a transport failure is
violated by the legacy implementation. -/
theorem legacy_write_control_cache_advances_on_fault :
    Legacy.write_control ⟨0⟩ (initSt [some 7])
        = (⟨⟨0⟩, ⟨[], [.csLow, .spiWriteWord 0, .csHigh]⟩⟩, .error (.Spi 7))
    ∧ write_control ⟨0⟩ (initSt [none, some 7])
        = (⟨⟨256⟩, ⟨[], [.csLow, .spiWrite [0, 0], .csHigh]⟩⟩, .error (.Spi 7))
    ∧ (initSt [some 7]).control = ⟨256⟩
    ∧ (⟨0⟩ : Config) ≠ (⟨256⟩ : Config) :=
  ⟨rfl, rfl, rfl, by decide⟩

/-- C3: for every `v < 2^28`, the fault-free `write_data` transmits the
LSB-tagged half first and the MSB-tagged half second, and untagging then
recombining the halves as `(high <<< 14) ||| low` recovers `v` exactly. -/
theorem write_data_split_lossless :
    ∀ (r : FrequencyRegister) (v : Nat) (t : List Event), v < 2 ^ 28 →
      write_data (get_freq_register_bits r) v ⟨[], t⟩ =
        (⟨[], t ++ [.csLow,
            .spiWrite (beBytes (.U16 (get_freq_register_bits r ||| (v &&& 16383)))),
            .spiWrite (beBytes (.U16 (get_freq_register_bits r ||| (v >>> 14)))),
            .csHigh]⟩, .ok ())
      ∧ ((((get_freq_register_bits r ||| (v >>> 14)) &&& 16383) <<< 14)
          ||| ((get_freq_register_bits r ||| (v &&& 16383)) &&& 16383)) = v := by
  intro r v t hv
  have hreg := freq_tag_disjoint r
  constructor
  · rw [write_data_ok, mask_shift_eq hv]
  · rw [or_and_mask hreg (shr14_lt hv),
      or_and_mask hreg (Nat.and_lt_two_pow v (by norm_num))]
    exact recombine v

theorem write_data_split_lossless_witness :
    ((((get_freq_register_bits .F0 ||| (0x9ABCDEF >>> 14)) &&& 16383) <<< 14)
      ||| ((get_freq_register_bits .F0 ||| (0x9ABCDEF &&& 16383)) &&& 16383))
      = 0x9ABCDEF :=
  (write_data_split_lossless .F0 0x9ABCDEF [] (by norm_num)).2

/-- C5: on a freshly constructed device, `set_frequency F0 0x9AB_CDEF`
succeeds and performs exactly three SPI transfers in order: the control
word `0x2100` (B28 and RESET), the LSB-tagged word `0x4DEF` (bytes
`0x4D 0xEF`), and the MSB-tagged word `0x66AF` (bytes `0x66 0xAF`). -/
theorem fresh_set_frequency_three_transfers :
    set_frequency .F0 0x9ABCDEF (initSt []) =
      (⟨⟨0x2100⟩, ⟨[], [.csLow, .spiWrite [0x21, 0x00], .csHigh,
          .csLow, .spiWrite [0x4D, 0xEF], .spiWrite [0x66, 0xAF], .csHigh]⟩⟩,
       .ok ()) := rfl

/-- C6: `reset` is extensionally equal to `disable`: on every device state
they return the same state (same transfers, byte for byte) and result, the
common target word being the cached control with the RESET bit set. -/
theorem reset_extensionally_equals_disable :
    ∀ s : St, reset s = disable s
      ∧ disable s = write_control (s.control.with_high BitFlags.RESET) s :=
  fun _ => ⟨rfl, rfl⟩

/-- C4 counterexample: on a fresh device (cached control `0x0100`), two
consecutive `write_control_if_different` calls with that same cached value
produce zero bus transfers, not exactly one as the claim states. -/
theorem wcid_twice_same_config_zero_transfers :
    spiCount (((write_control_if_different ⟨256⟩
        ((write_control_if_different ⟨256⟩ (initSt [])).1)).1).hw.trace) = 0
    ∧ (0 : Nat) ≠ 1 := by
  exact ⟨rfl, by decide⟩

/-- C4 (amended): `write_control_if_different c` is an immediate success
with no chip-select or SPI activity when `c` equals the cached `Config`,
otherwise it is exactly `write_control c`; consequently, two consecutive
fault-free calls with the same `c` produce at most one bus transfer —
exactly one when `c` differs from the initially cached value, and zero
when it equals it. -/
theorem wcid_suppresses_redundant_writes :
    ∀ (c : Config) (s : St) (ctl : Config) (t : List Event),
      (c = s.control → write_control_if_different c s = (s, .ok ()))
      ∧ (c ≠ s.control → write_control_if_different c s = write_control c s)
      ∧ spiCount (((write_control_if_different c
            ((write_control_if_different c ⟨ctl, ⟨[], t⟩⟩).1)).1).hw.trace)
          = spiCount t + (if c = ctl then 0 else 1) := by
  intro c s ctl t
  refine ⟨fun h => by simp [write_control_if_different, h],
    fun h => by simp [write_control_if_different, h], ?_⟩
  by_cases hc : c = ctl
  · subst hc
    simp [write_control_if_different, spiCount]
  · have h1 : write_control_if_different c ⟨ctl, ⟨[], t⟩⟩ =
        write_control c ⟨ctl, ⟨[], t⟩⟩ := by
      simp [write_control_if_different, hc]
    rw [h1, write_control_ok]
    simp [write_control_if_different, spiCount_append, spiCount, hc]

theorem wcid_suppresses_redundant_writes_witness :
    write_control_if_different ⟨256⟩ (initSt []) = (initSt [], .ok ()) :=
  (wcid_suppresses_redundant_writes ⟨256⟩ (initSt []) ⟨256⟩ []).1 rfl

/-- C7: a fault-free `write_control` puts exactly the low 14 bits of the
control word on the wire (bits 14 and 15 stripped) in big-endian byte
order, and the 8-, 16- and 32-bit payload variants of `write` all emit
the big-endian byte representation of their payload. -/
theorem control_write_masks_and_big_endian :
    ∀ (c ctl : Config) (t : List Event) (n : Nat),
      write_control c ⟨ctl, ⟨[], t⟩⟩ =
        (⟨c, ⟨[], t ++ [.csLow,
            .spiWrite [c.bits % 2 ^ 14 / 2 ^ 8, c.bits % 2 ^ 8], .csHigh]⟩⟩,
         .ok ())
      ∧ c.bits &&& 16383 = c.bits % 2 ^ 14
      ∧ write (.U8 n) ⟨[], t⟩ =
          (⟨[], t ++ [.csLow, .spiWrite [n % 2 ^ 8], .csHigh]⟩, .ok ())
      ∧ write (.U16 n) ⟨[], t⟩ =
          (⟨[], t ++ [.csLow, .spiWrite [n / 2 ^ 8 % 2 ^ 8, n % 2 ^ 8], .csHigh]⟩,
           .ok ())
      ∧ write (.U32 n) ⟨[], t⟩ =
          (⟨[], t ++ [.csLow, .spiWrite [n / 2 ^ 24 % 2 ^ 8, n / 2 ^ 16 % 2 ^ 8,
              n / 2 ^ 8 % 2 ^ 8, n % 2 ^ 8], .csHigh]⟩, .ok ()) := by
  intro c ctl t n
  have hu8 : beBytes (.U8 n) = [n % 2 ^ 8] := by
    simp only [beBytes]
    rw [and_255]
  have hu16 : ∀ m : Nat, beBytes (.U16 m) = [m / 2 ^ 8 % 2 ^ 8, m % 2 ^ 8] := by
    intro m
    simp only [beBytes]
    rw [shr_and_255, and_255]
  have hu32 : beBytes (.U32 n) = [n / 2 ^ 24 % 2 ^ 8, n / 2 ^ 16 % 2 ^ 8,
      n / 2 ^ 8 % 2 ^ 8, n % 2 ^ 8] := by
    simp only [beBytes]
    rw [shr_and_255, shr_and_255, shr_and_255, and_255]
  refine ⟨?_, and_16383 c.bits, by rw [write_ok, hu8], by rw [write_ok, hu16],
    by rw [write_ok, hu32]⟩
  rw [write_control_ok, hu16, and_16383]
  have hdiv : c.bits % 2 ^ 14 / 2 ^ 8 % 2 ^ 8 = c.bits % 2 ^ 14 / 2 ^ 8 := by
    apply Nat.mod_eq_of_lt
    apply Nat.div_lt_of_lt_mul
    calc c.bits % 2 ^ 14 < 2 ^ 14 := Nat.mod_lt _ (by norm_num)
      _ ≤ 2 ^ 8 * 2 ^ 8 := by norm_num
  have hmod : c.bits % 2 ^ 14 % 2 ^ 8 = c.bits % 2 ^ 8 :=
    Nat.mod_mod_of_dvd c.bits (by norm_num)
  rw [hdiv, hmod]

/-- C8: `enable`, `disable`, `reset`, `select_frequency` and `select_phase`
go through the unconditional write path: each fault-free call adds exactly
one SPI transfer whatever the cached control is, two consecutive `enable`
calls add two, and `select_frequency F1` on a fresh device writes a control
word with exactly the RESET and FSELECT bits set. -/
theorem unconditional_control_writes :
    ∀ (ctl : Config) (t : List Event) (r : FrequencyRegister) (p : PhaseRegister),
      spiCount (((enable ⟨ctl, ⟨[], t⟩⟩).1).hw.trace) = spiCount t + 1
      ∧ spiCount (((disable ⟨ctl, ⟨[], t⟩⟩).1).hw.trace) = spiCount t + 1
      ∧ spiCount (((reset ⟨ctl, ⟨[], t⟩⟩).1).hw.trace) = spiCount t + 1
      ∧ spiCount (((select_frequency r ⟨ctl, ⟨[], t⟩⟩).1).hw.trace) = spiCount t + 1
      ∧ spiCount (((select_phase p ⟨ctl, ⟨[], t⟩⟩).1).hw.trace) = spiCount t + 1
      ∧ spiCount (((enable ((enable ⟨ctl, ⟨[], t⟩⟩).1)).1).hw.trace) = spiCount t + 2
      ∧ select_frequency .F1 (initSt []) =
          (⟨⟨BitFlags.RESET ||| BitFlags.FSELECT⟩,
            ⟨[], [.csLow, .spiWrite [0x09, 0x00], .csHigh]⟩⟩, .ok ()) := by
  intro ctl t r p
  have hwc : ∀ (c c2 : Config) (t2 : List Event),
      spiCount (((write_control c ⟨c2, ⟨[], t2⟩⟩).1).hw.trace) = spiCount t2 + 1 := by
    intro c c2 t2
    rw [write_control_ok]
    simp [spiCount_append, spiCount]
  have hen : ∀ (c2 : Config) (t2 : List Event),
      enable ⟨c2, ⟨[], t2⟩⟩ =
        (⟨c2.with_low BitFlags.RESET, ⟨[], t2 ++ [.csLow,
            .spiWrite (beBytes (.U16 ((c2.with_low BitFlags.RESET).bits &&& 16383))),
            .csHigh]⟩⟩, .ok ()) :=
    fun c2 t2 => write_control_ok (c2.with_low BitFlags.RESET) c2 t2
  refine ⟨hwc _ _ _, hwc _ _ _, hwc _ _ _, ?_, ?_, ?_, rfl⟩
  · cases r with
    | F0 => exact hwc _ _ _
    | F1 => exact hwc _ _ _
  · cases p with
    | P0 => exact hwc _ _ _
    | P1 => exact hwc _ _ _
  · rw [hen, hen]
    simp [spiCount_append, spiCount]

/-- C9: the cached `Config` always has bits 14 and 15 clear: at
construction it holds exactly the RESET bit (`2^8`), and every public
operation preserves the bound `control.bits < 2^14`, since control words
are only ever derived with masks at or below bit 13 and the D14/D15 tags
go only into data payloads. -/
theorem cached_control_low14_invariant :
    (∀ fs : List (Option Nat), (initSt fs).control.bits = 2 ^ 8)
    ∧ ∀ (op : Op) (s : St), s.control.bits < 2 ^ 14 →
        ((runOp op s).1).control.bits < 2 ^ 14 :=
  ⟨fun _ => rfl, runOp_control_lt⟩

theorem cached_control_low14_invariant_witness :
    ((runOp (.opSetFrequency .F0 0x9ABCDEF) (initSt [])).1).control.bits < 2 ^ 14 :=
  cached_control_low14_invariant.2 (.opSetFrequency .F0 0x9ABCDEF) (initSt [])
    (by decide)

/-- C10: when either SPI transfer inside `write_data` faults, the error is
returned at once and `cs.set_high` is never reached (the trace ends after
the failing transfer, chip select still asserted); the primitive `write`,
by contrast, attempts the deassert after a bus fault, and a failing
deassert replaces the bus-fault error in the result. -/
theorem write_data_error_leaves_cs_asserted :
    ∀ (reg v : Nat) (t : List Event) (e e2 : Nat) (rest : List (Option Nat))
      (p : DataFormat),
      write_data reg v ⟨none :: some e :: rest, t⟩
          = (⟨rest, t ++ [.csLow,
              .spiWrite (beBytes (.U16 (reg ||| (v &&& 16383))))]⟩,
             .error (.Spi e))
      ∧ write_data reg v ⟨none :: none :: some e :: rest, t⟩
          = (⟨rest, t ++ [.csLow,
              .spiWrite (beBytes (.U16 (reg ||| (v &&& 16383)))),
              .spiWrite (beBytes (.U16 (reg ||| ((v &&& 0x0FFFC000) >>> 14))))]⟩,
             .error (.Spi e))
      ∧ write p ⟨none :: some e :: none :: rest, t⟩
          = (⟨rest, t ++ [.csLow, .spiWrite (beBytes p), .csHigh]⟩, .error (.Spi e))
      ∧ write p ⟨none :: some e :: some e2 :: rest, t⟩
          = (⟨rest, t ++ [.csLow, .spiWrite (beBytes p), .csHigh]⟩,
             .error (.CSPinError e2)) := by
  intro reg v t e e2 rest p
  refine ⟨?_, ?_, ?_, ?_⟩ <;> simp [write, write_data, Hw.step]

end Ad983x
